import Mathlib

set_option autoImplicit false

/-!
Shallow embedding of the ELL (Embedded Learning Library) core sources:

* `src/libraries/compiler/src/Dataflow.cpp` — the data-flow graph nodes
  (`DataNode::Process`, `NotifyDependencies`, `OnProcessComplete`,
  `LiteralNode`), embedded as an event-trace semantics;
* `src/libraries/value/src/VectorOperations.cpp` — `Accumulate`, `Dot`,
  `For` over vectors, and the free binary operators on `Vector`;
* `src/libraries/value/src/MatrixOperations.cpp` — `Sum`, `For` over
  matrices, `GEMM`, `GEMV`, and the free binary operators on `Matrix`;
* `src/libraries/dsp/include/WindowFunctions.h` — `GeneralizedCosineWindow`,
  `HammingWindow`, `HannWindow`.

Machine floating-point values are modelled as exact rationals (the
mathematical value the code computes); external library functions that are
not part of the repository (std::cos, the constant pi) are abstracted as
parameters, and repository code that is only declared here (BLAS wrapper,
compute-context iteration, storage allocation, Vector/Matrix copy and
compound assignment) is modelled from the specification, as marked on each
such definition.
-/

namespace ELL

/-! ## Part 1: the data-flow graph (Dataflow.cpp) -/

namespace Compiler

/-- Storage variables are identified by an id; `compiler.FreeVar` acts on such an id. -/
abbrev Variable := Nat

/-- Observable events of one node's `Process` call: invoking a dependent's own
`Process` with the produced value (a notification), and releasing a variable
back to the allocator (`compiler.FreeVar`). -/
inductive Event where
| notify (dep : Nat)
| free (v : Variable)
deriving DecidableEq, Repr

/-- Decides whether an event is a storage release. -/
def Event.isFree : Event → Bool
| .free _ => true
| _ => false

/-- A data-flow node as far as `DataNode::Process` observes it: the ordered list
of recorded dependents (indices), and the outcome of the virtual `OnProcess`
call, which either produces a variable or produces nothing. -/
structure DataNode where
dependencies : List Nat
onProcess : Option Variable

/-- Trace of `DataNode::NotifyDependencies`: the loop
`for (i = 0; i < _dependencies.size(); ++i) _dependencies[i]->Process(...)`
invokes each recorded dependent once, in recorded order. Each dependent
`Process` call is observed as one `notify` event. -/
def NotifyDependencies (n : DataNode) : List Event :=
n.dependencies.map Event.notify

/-- Trace of the default `DataNode::OnProcessComplete`: `compiler.FreeVar(varResult)`. -/
def OnProcessComplete (v : Variable) : List Event :=
[Event.free v]

/-- Trace of `DataNode::Process`: run `OnProcess`; if it produced a result,
notify the dependents and then run the completion hook; otherwise do nothing. -/
def Process (n : DataNode) : List Event :=
match n.onProcess with
| none => []
| some v => NotifyDependencies n ++ OnProcessComplete v

/-- A literal node stores the variable it was constructed with. -/
structure LiteralNode where
pVar : Variable

/-- Outcome of the `LiteralNode::LiteralNode(Variable* pVar)` constructor: the
nullable pointer argument is an `Option`; `assert(pVar != nullptr)` fails on
null, otherwise the node stores the pointed-to variable. -/
def LiteralNode.construct (pVar : Option Variable) : Except String LiteralNode :=
match pVar with
| none => .error "assertion failed: pVar != nullptr"
| some v => .ok ⟨v⟩

end Compiler

end ELL

/-! ## Part 2: window functions (WindowFunctions.h) -/

namespace ELL.Dsp

/-- Symmetry selector of a window: symmetric (filter design) or periodic
(spectral analysis). -/
inductive WindowSymmetry where
| symmetric
| periodic
deriving DecidableEq, Repr

/-- Denominator used by `GeneralizedCosineWindow`:
`symmetry == symmetric ? size - 1 : size`. The C++ subtraction is on
`size_t`, so at `size = 0` it wraps around; that value is never read,
because the result vector is then empty, so natural-number truncated
subtraction is an observationally identical model. -/
def windowDenom (size : Nat) (symmetry : WindowSymmetry) : ℚ :=
match symmetry with
| .symmetric => ((size - 1 : Nat) : ℚ)
| .periodic => (size : ℚ)

/-- Inner loop of `GeneralizedCosineWindow` for one output index: starting
from `windowVal = coefficients[0]` and `sign = -1.0`, for each
`coeffIndex` in `1, ..., numCoeffs - 1` it adds
`sign * coefficients[coeffIndex] * cos(2 pi coeffIndex index / denom)` and
flips the sign. The cosine function and the constant pi come from external
math libraries, so they are passed in as parameters; doubles are modelled
as exact rationals. -/
def windowValAt (cosFn : ℚ → ℚ) (pi : ℚ) (denom : ℚ) (coefficients : List ℚ)
    (index : Nat) : ℚ :=
((List.range' 1 (coefficients.length - 1)).foldl
  (fun acc coeffIndex =>
    (acc.1 + acc.2 * coefficients.getD coeffIndex 0
        * cosFn ((2 * pi * (coeffIndex : ℚ) * (index : ℚ)) / denom),
      acc.2 * (-1)))
  (coefficients.getD 0 0, -1)).1

/-- Shallow embedding of `GeneralizedCosineWindow`: a vector of `size`
samples, sample `index` being the alternating cosine sum of the
coefficients. -/
def GeneralizedCosineWindow (cosFn : ℚ → ℚ) (pi : ℚ) (size : Nat)
    (coefficients : List ℚ) (symmetry : WindowSymmetry) : List ℚ :=
(List.range size).map
  (fun index => windowValAt cosFn pi (windowDenom size symmetry) coefficients index)

/-- Embedding of `HammingWindow`: the generalized cosine window with
coefficients `0.54` and `0.46`. -/
def HammingWindow (cosFn : ℚ → ℚ) (pi : ℚ) (size : Nat)
    (symmetry : WindowSymmetry) : List ℚ :=
GeneralizedCosineWindow cosFn pi size [(54 : ℚ) / 100, 1 - (54 : ℚ) / 100] symmetry

/-- Embedding of `HannWindow`: the generalized cosine window with
coefficients `0.5` and `0.5`. -/
def HannWindow (cosFn : ℚ → ℚ) (pi : ℚ) (size : Nat)
    (symmetry : WindowSymmetry) : List ℚ :=
GeneralizedCosineWindow cosFn pi size [(1 : ℚ) / 2, (1 : ℚ) / 2] symmetry

end ELL.Dsp

/-! ## Part 3: the value library (VectorOperations.cpp, MatrixOperations.cpp) -/

namespace ELL.Value

/-- Element types of a value; machine numeric values themselves are modelled
as exact rationals, the tag records the C++ `ValueType`. -/
inductive ValueType where
| undefined
| boolean
| char8
| byte
| int16
| int32
| int64
| float
| double
deriving DecidableEq, Repr

/-- Error codes of `utilities::InputException` used by the value library. -/
inductive InputExceptionErrors where
| invalidArgument
| sizeMismatch
| typeMismatch
deriving DecidableEq, Repr

/-- Error codes of `utilities::LogicException` used by the value library. -/
inductive LogicExceptionErrors where
| notImplemented
deriving DecidableEq, Repr

/-- The active execution context: the interpreting `ComputeContext` or the
code-emitting `LLVMContext`; `InvokeForContext<T>` runs its callback exactly
when the active context has type `T`. -/
inductive ContextType where
| compute
| llvm
deriving DecidableEq, Repr

/-- Memory layout of a value: the per-dimension extents, and the cumulative
increment of dimension 0 (`GetCumulativeIncrement(0)`, the stride passed to
the BLAS routines; `1` for a contiguous vector). -/
structure MemoryLayout where
dims : List Nat
inc : Nat := 1
deriving DecidableEq, Repr

/-- A `value::Vector`: element type, layout, and the stored elements. -/
structure Vector where
type : ValueType
layout : MemoryLayout
elems : List ℚ
deriving DecidableEq, Repr

/-- Size of a vector, as reported by `Vector::Size()`: the number of elements
described by its layout. -/
def Vector.size (v : Vector) : Nat :=
v.layout.dims.prod

/-- A `value::Matrix`: element type, layout, and the stored rows. -/
structure Matrix where
type : ValueType
layout : MemoryLayout
rows : List (List ℚ)
deriving DecidableEq, Repr

/-- Element access `matrix(row, column)`. -/
def Matrix.entry (m : Matrix) (row column : Nat) : ℚ :=
(m.rows.getD row []).getD column 0

/-- Modelled from the spec: `EmitterContext::For` (the context iteration
routine behind `GetContext().For`, not under `src/`) walks every coordinate
of the given layout in row-major (last-dimension-fastest) order and invokes
the per-coordinate callback synchronously; this function returns the
coordinate sequence in invocation order. -/
def contextFor (dims : List Nat) : List (List Nat) :=
match dims with
| [] => [[]]
| d :: rest => (List.range d).bind (fun i => (contextFor rest).map (fun c => i :: c))

/-- Embedding of the vector `For` of VectorOperations.cpp: it rejects a layout
that is not one-dimensional with an invalid-argument error, otherwise hands
each coordinate's first component to the callback. The result is the error
raised (if any) paired with the sequence of callback arguments in invocation
order; an empty sequence means the callback is never invoked. -/
def Vector.For (v : Vector) : Option InputExceptionErrors × List Nat :=
if v.layout.dims.length ≠ 1 then (some .invalidArgument, [])
else (none, (contextFor v.layout.dims).map (fun c => c.getD 0 0))

/-- Embedding of the matrix `For` of MatrixOperations.cpp: it rejects a layout
that is not two-dimensional, otherwise hands each coordinate's first two
components to the callback, as with `Vector.For`. -/
def Matrix.For (m : Matrix) : Option InputExceptionErrors × List (Nat × Nat) :=
if m.layout.dims.length ≠ 2 then (some .invalidArgument, [])
else (none, (contextFor m.layout.dims).map (fun c => (c.getD 0 0, c.getD 1 0)))

/-- Modelled from the spec: `Allocate(type, ScalarLayout)` (the allocator of
the compute context, not under `src/`) returns a fresh zero-initialized
scalar slot. -/
def allocateScalar : ℚ :=
0

/-- Embedding of `Sum` of MatrixOperations.cpp: a freshly allocated scalar
accumulates `matrix(row, column)` over the coordinates visited by the
matrix `For`; an error raised by `For` propagates. -/
def Sum (matrix : Matrix) : Except InputExceptionErrors ℚ :=
match Matrix.For matrix with
| (some e, _) => .error e
| (none, coords) =>
  .ok (coords.foldl (fun result rc => result + matrix.entry rc.1 rc.2) allocateScalar)

/-- Embedding of `GEMM` of MatrixOperations.cpp: it throws
`LogicException(notImplemented)` on every input. -/
def GEMM (m1 m2 : Matrix) : Except LogicExceptionErrors Matrix :=
.error .notImplemented

/-- Embedding of `GEMV` of MatrixOperations.cpp: it throws
`LogicException(notImplemented)` on every input. -/
def GEMV (m : Matrix) (v : Vector) : Except LogicExceptionErrors Vector :=
.error .notImplemented

/-- Observable backend activity of one `Dot` call: a vendor BLAS routine call
with the shape (count, stride, stride), or one iteration of the generic
elementwise loop. -/
inductive DotEvent where
| vendor (name : String) (n : Nat) (incx incy : Nat)
| loopStep (index : Nat)
deriving DecidableEq, Repr

/-- Decides whether an event is a vendor-routine call. -/
def DotEvent.isVendor : DotEvent → Bool
| .vendor _ _ _ _ => true
| .loopStep _ => false

/-- Modelled from the spec: `math::Blas::Dot` (BlasWrapper.h, not under
`src/`), the vendor-optimized routine with calling convention
(count, pointer, stride, pointer, stride -> scalar), returning the dot
product of the two strided sequences. -/
def blasDot (n : Nat) (x : List ℚ) (incx : Nat) (y : List ℚ) (incy : Nat) : ℚ :=
((List.range n).map (fun i => x.getD (i * incx) 0 * y.getD (i * incy) 0)).sum

/-- Value computed by the generic elementwise-loop path of `Dot`
(lines 131-137 of VectorOperations.cpp): a default-constructed scalar
accumulator (modelled from the spec as zero) accumulates
`v1[index] * v2[index]` over the indices visited by the vector `For`. -/
def dotLoop (v1 v2 : Vector) : ℚ :=
(Vector.For v1).2.foldl
  (fun result index => result + v1.elems.getD index 0 * v2.elems.getD index 0)
  allocateScalar

/-- Embedding of `Dot` of VectorOperations.cpp. It checks the sizes, then the
element types; for `float` (resp. `double`) it declares `cblas_sdot` (resp.
`cblas_ddot`) and invokes it — executing the wrapped `math::Blas::Dot` under
the `ComputeContext`, or emitting an undecorated call to the same external
routine under the `LLVMContext` (the spec requires both branches to compute
the identical mathematical result) — passing `Size()` and the cumulative
increments of both layouts; for every other element type it falls back to
the generic elementwise loop over `v1`'s layout. The result is paired with
the trace of backend activity; an error leaves the trace empty. -/
def Dot (ctx : ContextType) (v1 v2 : Vector) :
    Except InputExceptionErrors ℚ × List DotEvent :=
if v1.size ≠ v2.size then (.error .sizeMismatch, [])
else if v1.type ≠ v2.type then (.error .typeMismatch, [])
else if v1.type = .float then
  match ctx with
  | .compute =>
    (.ok (blasDot v1.size v1.elems v1.layout.inc v2.elems v2.layout.inc),
      [.vendor "cblas_sdot" v1.size v1.layout.inc v2.layout.inc])
  | .llvm =>
    (.ok (blasDot v1.size v1.elems v1.layout.inc v2.elems v2.layout.inc),
      [.vendor "cblas_sdot" v1.size v1.layout.inc v2.layout.inc])
else if v1.type = .double then
  match ctx with
  | .compute =>
    (.ok (blasDot v1.size v1.elems v1.layout.inc v2.elems v2.layout.inc),
      [.vendor "cblas_ddot" v1.size v1.layout.inc v2.layout.inc])
  | .llvm =>
    (.ok (blasDot v1.size v1.elems v1.layout.inc v2.elems v2.layout.inc),
      [.vendor "cblas_ddot" v1.size v1.layout.inc v2.layout.inc])
else
  match Vector.For v1 with
  | (some e, _) => (.error e, [])
  | (none, indices) => (.ok (dotLoop v1 v2), indices.map DotEvent.loopStep)

/-! ### Free binary operators, over a store of vector/matrix slots

The free operators of VectorOperations.cpp and MatrixOperations.cpp mutate
through `Copy()` and the compound assignments, which live in Vector.cpp and
Matrix.cpp (not under `src/`). To make mutation observable, values live in a
store of slots addressed by handles (list indices); `Copy` allocates a fresh
slot and the compound assignments overwrite a slot in place. -/

/-- A store of vector slots; a handle is an index into the store. -/
abbrev VectorStore := List (List ℚ)

/-- A store of matrix slots (each a list of rows). -/
abbrev MatrixStore := List (List (List ℚ))

/-- Modelled from the spec: `Vector::Copy()` produces an independent value —
a fresh slot holding the same elements; returns the new store and the new
handle. -/
def copyVector (st : VectorStore) (v : Nat) : VectorStore × Nat :=
(st ++ [st.getD v []], st.length)

/-- Modelled from the spec: `Vector::operator+=(Scalar)` adds the scalar to
every element of the vector, in place. -/
def plusAssignScalar (st : VectorStore) (h : Nat) (s : ℚ) : VectorStore :=
st.set h ((st.getD h []).map (fun x => x + s))

/-- Modelled from the spec: `Vector::operator-=(Scalar)`, in place. -/
def minusAssignScalar (st : VectorStore) (h : Nat) (s : ℚ) : VectorStore :=
st.set h ((st.getD h []).map (fun x => x - s))

/-- Modelled from the spec: `Vector::operator*=(Scalar)`, in place. -/
def timesAssignScalar (st : VectorStore) (h : Nat) (s : ℚ) : VectorStore :=
st.set h ((st.getD h []).map (fun x => x * s))

/-- Modelled from the spec: `Vector::operator/=(Scalar)`, in place. -/
def divAssignScalar (st : VectorStore) (h : Nat) (s : ℚ) : VectorStore :=
st.set h ((st.getD h []).map (fun x => x / s))

/-- Modelled from the spec: `Vector::operator+=(Vector)`, elementwise in
place. -/
def plusAssignVector (st : VectorStore) (h h2 : Nat) : VectorStore :=
st.set h (List.zipWith (fun x y => x + y) (st.getD h []) (st.getD h2 []))

/-- Modelled from the spec: `Vector::operator-=(Vector)`, elementwise in
place. -/
def minusAssignVector (st : VectorStore) (h h2 : Nat) : VectorStore :=
st.set h (List.zipWith (fun x y => x - y) (st.getD h []) (st.getD h2 []))

/-- Embedding of `operator+(Vector, Scalar)`: copy, then `copy += s`. -/
def vecAddScalar (st : VectorStore) (v : Nat) (s : ℚ) : VectorStore × Nat :=
let c := copyVector st v
(plusAssignScalar c.1 c.2 s, c.2)

/-- Embedding of `operator+(Scalar, Vector)`: delegates to `v + s`. -/
def scalarAddVec (st : VectorStore) (s : ℚ) (v : Nat) : VectorStore × Nat :=
vecAddScalar st v s

/-- Embedding of `operator+(Vector, Vector)`: copy `v1`, then `copy += v2`. -/
def vecAddVec (st : VectorStore) (v1 v2 : Nat) : VectorStore × Nat :=
let c := copyVector st v1
(plusAssignVector c.1 c.2 v2, c.2)

/-- Embedding of `operator-(Scalar, Vector)`: copy `v`, then write
`copy(index) = s - copy(index)` at every index via `For`. -/
def scalarSubVec (st : VectorStore) (s : ℚ) (v : Nat) : VectorStore × Nat :=
let c := copyVector st v
(c.1.set c.2 ((c.1.getD c.2 []).map (fun x => s - x)), c.2)

/-- Embedding of `operator-(Vector, Scalar)`: copy, then `copy -= s`. -/
def vecSubScalar (st : VectorStore) (v : Nat) (s : ℚ) : VectorStore × Nat :=
let c := copyVector st v
(minusAssignScalar c.1 c.2 s, c.2)

/-- Embedding of `operator-(Vector, Vector)`: copy `v1`, then `copy -= v2`. -/
def vecSubVec (st : VectorStore) (v1 v2 : Nat) : VectorStore × Nat :=
let c := copyVector st v1
(minusAssignVector c.1 c.2 v2, c.2)

/-- Embedding of `operator*(Vector, Scalar)`: copy, then `copy *= s`. -/
def vecMulScalar (st : VectorStore) (v : Nat) (s : ℚ) : VectorStore × Nat :=
let c := copyVector st v
(timesAssignScalar c.1 c.2 s, c.2)

/-- Embedding of `operator*(Scalar, Vector)`: delegates to `v * s`. -/
def scalarMulVec (st : VectorStore) (s : ℚ) (v : Nat) : VectorStore × Nat :=
vecMulScalar st v s

/-- Embedding of `operator/(Scalar, Vector)`: copy `v`, then write
`copy(index) = s / copy(index)` at every index via `For`. -/
def scalarDivVec (st : VectorStore) (s : ℚ) (v : Nat) : VectorStore × Nat :=
let c := copyVector st v
(c.1.set c.2 ((c.1.getD c.2 []).map (fun x => s / x)), c.2)

/-- Embedding of `operator/(Vector, Scalar)`: copy, then `copy /= s`. -/
def vecDivScalar (st : VectorStore) (v : Nat) (s : ℚ) : VectorStore × Nat :=
let c := copyVector st v
(divAssignScalar c.1 c.2 s, c.2)

/-- Modelled from the spec: `Matrix::Copy()` produces an independent value. -/
def copyMatrix (st : MatrixStore) (m : Nat) : MatrixStore × Nat :=
(st ++ [st.getD m []], st.length)

/-- Modelled from the spec: `Matrix::operator+=(Matrix)`, elementwise in
place. -/
def matPlusAssignMat (st : MatrixStore) (h h2 : Nat) : MatrixStore :=
st.set h (List.zipWith (List.zipWith (fun x y => x + y)) (st.getD h []) (st.getD h2 []))

/-- Modelled from the spec: `Matrix::operator+=(Scalar)`, in place. -/
def matPlusAssignScalar (st : MatrixStore) (h : Nat) (s : ℚ) : MatrixStore :=
st.set h ((st.getD h []).map (List.map (fun x => x + s)))

/-- Modelled from the spec: `Matrix::operator-=(Matrix)`, elementwise in
place. -/
def matMinusAssignMat (st : MatrixStore) (h h2 : Nat) : MatrixStore :=
st.set h (List.zipWith (List.zipWith (fun x y => x - y)) (st.getD h []) (st.getD h2 []))

/-- Modelled from the spec: `Matrix::operator-=(Scalar)`, in place. -/
def matMinusAssignScalar (st : MatrixStore) (h : Nat) (s : ℚ) : MatrixStore :=
st.set h ((st.getD h []).map (List.map (fun x => x - s)))

/-- Modelled from the spec: `Matrix::operator*=(Scalar)`, in place. -/
def matTimesAssignScalar (st : MatrixStore) (h : Nat) (s : ℚ) : MatrixStore :=
st.set h ((st.getD h []).map (List.map (fun x => x * s)))

/-- Modelled from the spec: `Matrix::operator/=(Scalar)`, in place. -/
def matDivAssignScalar (st : MatrixStore) (h : Nat) (s : ℚ) : MatrixStore :=
st.set h ((st.getD h []).map (List.map (fun x => x / s)))

/-- Embedding of `operator+(Matrix, Matrix)`: copy `m1`, then `copy += m2`. -/
def matAddMat (st : MatrixStore) (m1 m2 : Nat) : MatrixStore × Nat :=
let c := copyMatrix st m1
(matPlusAssignMat c.1 c.2 m2, c.2)

/-- Embedding of `operator+(Matrix, Scalar)`: copy, then `copy += s`. -/
def matAddScalar (st : MatrixStore) (m : Nat) (s : ℚ) : MatrixStore × Nat :=
let c := copyMatrix st m
(matPlusAssignScalar c.1 c.2 s, c.2)

/-- Embedding of `operator-(Matrix, Matrix)`: copy `m1`, then `copy -= m2`. -/
def matSubMat (st : MatrixStore) (m1 m2 : Nat) : MatrixStore × Nat :=
let c := copyMatrix st m1
(matMinusAssignMat c.1 c.2 m2, c.2)

/-- Embedding of `operator-(Matrix, Scalar)`: copy, then `copy -= s`. -/
def matSubScalar (st : MatrixStore) (m : Nat) (s : ℚ) : MatrixStore × Nat :=
let c := copyMatrix st m
(matMinusAssignScalar c.1 c.2 s, c.2)

/-- Embedding of `operator*(Matrix, Scalar)`: copy, then `copy *= s`. -/
def matMulScalar (st : MatrixStore) (m : Nat) (s : ℚ) : MatrixStore × Nat :=
let c := copyMatrix st m
(matTimesAssignScalar c.1 c.2 s, c.2)

/-- Embedding of `operator/(Matrix, Scalar)`: copy, then `copy /= s`. -/
def matDivScalar (st : MatrixStore) (m : Nat) (s : ℚ) : MatrixStore × Nat :=
let c := copyMatrix st m
(matDivAssignScalar c.1 c.2 s, c.2)

end ELL.Value

/-! ## Helper lemmas -/

namespace ELL.Compiler

theorem countP_isFree_map_notify (l : List Nat) :
    (l.map Event.notify).countP Event.isFree = 0 := by
  induction l with
  | nil => rfl
  | cons a l ih => simp [List.countP_cons, Event.isFree, ih]


end ELL.Compiler

namespace ELL.Dsp

theorem sign_fold_eq_sum (f : Nat → ℚ) (start len : Nat) (a s : ℚ) :
    ((List.range' start len).foldl
      (fun acc k => (acc.1 + acc.2 * f k, acc.2 * (-1))) (a, s)).1
      = a + ∑ k in Finset.Ico start (start + len), s * (-1 : ℚ) ^ (k - start) * f k := by
  induction len generalizing start a s with
  | zero => simp
  | succ m ih =>
    rw [List.range'_succ, List.foldl_cons]
    rw [ih (start + 1) (a + s * f start) (s * (-1))]
    have hsplit : Finset.Ico start (start + (m + 1))
        = insert start (Finset.Ico (start + 1) (start + 1 + m)) := by
      ext x
      simp only [Finset.mem_Ico, Finset.mem_insert]
      omega
    rw [hsplit, Finset.sum_insert (by simp)]
    have hterm : ∀ k ∈ Finset.Ico (start + 1) (start + 1 + m),
        s * (-1 : ℚ) * (-1 : ℚ) ^ (k - (start + 1)) * f k
          = s * (-1 : ℚ) ^ (k - start) * f k := by
      intro k hk
      rw [Finset.mem_Ico] at hk
      have hks : k - start = (k - (start + 1)) + 1 := by omega
      rw [hks, pow_succ]
      ring
    rw [Finset.sum_congr rfl hterm]
    simp
    ring


end ELL.Dsp

namespace ELL.Value

theorem store_append_lt {α : Type} (st : List α) (x : α) (v : Nat)
    (hv : v < st.length) (d : α) :
    (st ++ [x]).getD v d = st.getD v d := by
  rw [List.getD_eq_getElem?_getD, List.getD_eq_getElem?_getD,
    List.getElem?_append_left hv]

theorem store_append_length {α : Type} (st : List α) (x : α) (d : α) :
    (st ++ [x]).getD st.length d = x := by
  rw [List.getD_eq_getElem?_getD]
  simp

theorem store_frame {α : Type} (st : List α) (x y : α) (v : Nat)
    (hv : v < st.length) (d : α) :
    ((st ++ [x]).set st.length y).getD v d = st.getD v d := by
  rw [List.getD_eq_getElem?_getD, List.getD_eq_getElem?_getD,
    List.getElem?_set_ne (by omega), List.getElem?_append_left hv]

theorem store_result {α : Type} (st : List α) (x y : α) (d : α) :
    ((st ++ [x]).set st.length y).getD st.length d = y := by
  rw [List.getD_eq_getElem?_getD, List.getElem?_set_self']
  simp

theorem bind_singleton_map {α β : Type} (f : α → β) (l : List α) :
    l.bind (fun i => [f i]) = l.map f := by
  induction l with
  | nil => rfl
  | cons a l ih => simp [List.bind, ih]

theorem contextFor_one (n : Nat) :
    contextFor [n] = (List.range n).map (fun i => [i]) := by
  simp only [contextFor]
  exact bind_singleton_map (fun i => [i]) (List.range n)

theorem vectorFor_eq (t : ValueType) (n inc : Nat) (x : List ℚ) :
    Vector.For ⟨t, ⟨[n], inc⟩, x⟩ = (none, List.range n) := by
  simp only [Vector.For, contextFor_one, List.map_map]
  norm_num
  exact List.map_id (List.range n)

theorem foldl_add_eq_sum (f : Nat → ℚ) (l : List Nat) (a : ℚ) :
    l.foldl (fun acc i => acc + f i) a = a + (l.map f).sum := by
  induction l generalizing a with
  | nil => simp
  | cons i l ih => simp [ih, add_assoc]

theorem vecAddScalar_eq (st : VectorStore) (v : Nat) (s : ℚ) :
    vecAddScalar st v s
      = ((st ++ [st.getD v []]).set st.length
          ((st.getD v []).map (fun x => x + s)), st.length) := by
  simp [vecAddScalar, copyVector, plusAssignScalar, store_append_length]

theorem vecSubScalar_eq (st : VectorStore) (v : Nat) (s : ℚ) :
    vecSubScalar st v s
      = ((st ++ [st.getD v []]).set st.length
          ((st.getD v []).map (fun x => x - s)), st.length) := by
  simp [vecSubScalar, copyVector, minusAssignScalar, store_append_length]

theorem vecMulScalar_eq (st : VectorStore) (v : Nat) (s : ℚ) :
    vecMulScalar st v s
      = ((st ++ [st.getD v []]).set st.length
          ((st.getD v []).map (fun x => x * s)), st.length) := by
  simp [vecMulScalar, copyVector, timesAssignScalar, store_append_length]

theorem vecDivScalar_eq (st : VectorStore) (v : Nat) (s : ℚ) :
    vecDivScalar st v s
      = ((st ++ [st.getD v []]).set st.length
          ((st.getD v []).map (fun x => x / s)), st.length) := by
  simp [vecDivScalar, copyVector, divAssignScalar, store_append_length]

theorem scalarSubVec_eq (st : VectorStore) (s : ℚ) (v : Nat) :
    scalarSubVec st s v
      = ((st ++ [st.getD v []]).set st.length
          ((st.getD v []).map (fun x => s - x)), st.length) := by
  simp [scalarSubVec, copyVector, store_append_length]

theorem scalarDivVec_eq (st : VectorStore) (s : ℚ) (v : Nat) :
    scalarDivVec st s v
      = ((st ++ [st.getD v []]).set st.length
          ((st.getD v []).map (fun x => s / x)), st.length) := by
  simp [scalarDivVec, copyVector, store_append_length]

theorem vecAddVec_eq (st : VectorStore) (v w : Nat) (hw : w < st.length) :
    vecAddVec st v w
      = ((st ++ [st.getD v []]).set st.length
          (List.zipWith (fun x y => x + y) (st.getD v []) (st.getD w [])),
        st.length) := by
  simp [vecAddVec, copyVector, plusAssignVector, store_append_length,
    List.getElem?_append_left hw]

theorem vecSubVec_eq (st : VectorStore) (v w : Nat) (hw : w < st.length) :
    vecSubVec st v w
      = ((st ++ [st.getD v []]).set st.length
          (List.zipWith (fun x y => x - y) (st.getD v []) (st.getD w [])),
        st.length) := by
  simp [vecSubVec, copyVector, minusAssignVector, store_append_length,
    List.getElem?_append_left hw]

theorem matAddScalar_eq (st : MatrixStore) (m : Nat) (s : ℚ) :
    matAddScalar st m s
      = ((st ++ [st.getD m []]).set st.length
          ((st.getD m []).map (List.map (fun x => x + s))), st.length) := by
  simp [matAddScalar, copyMatrix, matPlusAssignScalar, store_append_length]

theorem matSubScalar_eq (st : MatrixStore) (m : Nat) (s : ℚ) :
    matSubScalar st m s
      = ((st ++ [st.getD m []]).set st.length
          ((st.getD m []).map (List.map (fun x => x - s))), st.length) := by
  simp [matSubScalar, copyMatrix, matMinusAssignScalar, store_append_length]

theorem matMulScalar_eq (st : MatrixStore) (m : Nat) (s : ℚ) :
    matMulScalar st m s
      = ((st ++ [st.getD m []]).set st.length
          ((st.getD m []).map (List.map (fun x => x * s))), st.length) := by
  simp [matMulScalar, copyMatrix, matTimesAssignScalar, store_append_length]

theorem matDivScalar_eq (st : MatrixStore) (m : Nat) (s : ℚ) :
    matDivScalar st m s
      = ((st ++ [st.getD m []]).set st.length
          ((st.getD m []).map (List.map (fun x => x / s))), st.length) := by
  simp [matDivScalar, copyMatrix, matDivAssignScalar, store_append_length]

theorem matAddMat_eq (st : MatrixStore) (m p : Nat) (hp : p < st.length) :
    matAddMat st m p
      = ((st ++ [st.getD m []]).set st.length
          (List.zipWith (List.zipWith (fun x y => x + y))
            (st.getD m []) (st.getD p [])), st.length) := by
  simp [matAddMat, copyMatrix, matPlusAssignMat, store_append_length,
    List.getElem?_append_left hp]

theorem matSubMat_eq (st : MatrixStore) (m p : Nat) (hp : p < st.length) :
    matSubMat st m p
      = ((st ++ [st.getD m []]).set st.length
          (List.zipWith (List.zipWith (fun x y => x - y))
            (st.getD m []) (st.getD p [])), st.length) := by
  simp [matSubMat, copyMatrix, matMinusAssignMat, store_append_length,
    List.getElem?_append_left hp]

end ELL.Value

/-! ## Theorems for claims C1 and C9 -/

namespace ELL.Compiler

/-- C1: for every `DataNode` whose `OnProcess` produces a value `v` and whose
recorded dependents are `d_0, ..., d_(k-1)`, the trace of `Process` is exactly
one notification per recorded dependent, in recorded order, followed by a
single release of the produced storage; in particular a node with zero
dependents still runs the completion hook, so its result is freed
immediately, and in every case the storage is freed exactly once, after all
notifications. -/
theorem process_notifies_then_frees_once (n : DataNode) (v : Variable)
    (h : n.onProcess = some v) :
    Process n = n.dependencies.map Event.notify ++ [Event.free v] ∧
    (Process n).countP Event.isFree = 1 ∧
    (∀ i : Fin n.dependencies.length,
      (Process n).get? i = some (Event.notify (n.dependencies.get i))) ∧
    (Process n).get? n.dependencies.length = some (Event.free v) ∧
    (Process n).length = n.dependencies.length + 1 ∧
    (n.dependencies = [] → Process n = [Event.free v]) := by
  have htrace : Process n = n.dependencies.map Event.notify ++ [Event.free v] := by
    simp [Process, h, NotifyDependencies, OnProcessComplete]
  refine ⟨htrace, ?_, ?_, ?_, ?_, ?_⟩
  · rw [htrace]
    simp [List.countP_append, countP_isFree_map_notify, Event.isFree]
  · intro i
    rw [htrace]
    rw [List.get?_append (by simpa using i.isLt)]
    simp [List.get?_map, List.get?_eq_get i.isLt]
  · rw [htrace]
    rw [List.get?_append_right (by simp)]
    simp
  · rw [htrace]; simp
  · intro hdep
    rw [htrace, hdep]
    rfl

/-- Witness for C1 at a concrete node with two recorded dependents producing
variable 7; the hypothesis that `OnProcess` produced a value is discharged
by `rfl`. -/
theorem process_notifies_then_frees_once_witness :
    Process ⟨[4, 9], some 7⟩ = [4, 9].map Event.notify ++ [Event.free 7] ∧
    (Process ⟨[4, 9], some 7⟩).countP Event.isFree = 1 ∧
    (∀ i : Fin ([4, 9] : List Nat).length,
      (Process ⟨[4, 9], some 7⟩).get? i
        = some (Event.notify (([4, 9] : List Nat).get i))) ∧
    (Process ⟨[4, 9], some 7⟩).get? ([4, 9] : List Nat).length
      = some (Event.free 7) ∧
    (Process ⟨[4, 9], some 7⟩).length = ([4, 9] : List Nat).length + 1 ∧
    (([4, 9] : List Nat) = [] → Process ⟨[4, 9], some 7⟩ = [Event.free 7]) :=
  process_notifies_then_frees_once ⟨[4, 9], some 7⟩ 7 rfl

/-- C9: constructing a `LiteralNode` from a null variable pointer fails the
construction-time assertion, and for every non-null pointer the construction
succeeds and the node stores that variable. -/
theorem literalNode_construct_spec :
    (LiteralNode.construct none).isOk = false ∧
    (∀ v : Variable, LiteralNode.construct (some v) = .ok ⟨v⟩) ∧
    (∀ v : Variable, ∀ node : LiteralNode,
      LiteralNode.construct (some v) = .ok node → node.pVar = v) := by
  refine ⟨rfl, fun v => rfl, fun v node h => ?_⟩
  cases h' : LiteralNode.construct (some v) with
  | error e => simp [LiteralNode.construct] at h'
  | ok n =>
    rw [h'] at h
    cases h
    simp [LiteralNode.construct] at h'
    rw [← h']

end ELL.Compiler


/-! ## Theorem and witness for claim C10 -/

namespace ELL.Dsp

/-- C10: for every size `n` and non-empty coefficient list, the generalized
cosine window has exactly `n` samples (hence so do the Hamming and Hann
windows, for every `n` including `n = 0`), and sample `i` equals the
alternating cosine sum over the coefficients, with denominator `n - 1` in
the symmetric case and `n` in the periodic case. -/
theorem generalizedCosineWindow_spec (cosFn : ℚ → ℚ) (pi : ℚ) (n : Nat)
    (coefficients : List ℚ) (symmetry : WindowSymmetry)
    (hne : coefficients ≠ []) :
    (GeneralizedCosineWindow cosFn pi n coefficients symmetry).length = n ∧
    (HammingWindow cosFn pi n symmetry).length = n ∧
    (HannWindow cosFn pi n symmetry).length = n ∧
    (∀ i, i < n →
      (GeneralizedCosineWindow cosFn pi n coefficients symmetry).getD i 0
        = coefficients.getD 0 0
          + ∑ k in Finset.Ico 1 coefficients.length,
              (-1 : ℚ) ^ k * coefficients.getD k 0
                * cosFn ((2 * pi * (k : ℚ) * (i : ℚ)) / windowDenom n symmetry)) := by
  refine ⟨by simp [GeneralizedCosineWindow], by simp [HammingWindow, GeneralizedCosineWindow],
    by simp [HannWindow, GeneralizedCosineWindow], fun i hi => ?_⟩
  have hL : 1 ≤ coefficients.length := List.length_pos.mpr hne
  have hmap : (GeneralizedCosineWindow cosFn pi n coefficients symmetry).getD i 0
      = windowValAt cosFn pi (windowDenom n symmetry) coefficients i := by
    rw [GeneralizedCosineWindow, List.getD_eq_getElem?_getD, List.getElem?_map,
      List.getElem?_range hi]
    rfl
  rw [hmap, windowValAt]
  simp only [mul_assoc]
  rw [sign_fold_eq_sum]
  have hIco : 1 + (coefficients.length - 1) = coefficients.length := by omega
  rw [hIco]
  congr 1
  refine Finset.sum_congr rfl fun k hk => ?_
  rw [Finset.mem_Ico] at hk
  have hk1 : k = (k - 1) + 1 := by omega
  rw [hk1, pow_succ]
  have : k - 1 + 1 - 1 = k - 1 := by omega
  rw [this]
  ring

/-- Witness for C10: the spec theorem applied at `cosFn = const 1`, `pi = 0`,
`n = 2`, coefficients `[3, 5]`, symmetric; the non-emptiness hypothesis is
discharged by `decide`. -/
theorem generalizedCosineWindow_spec_witness :
    (GeneralizedCosineWindow (fun _ => 1) 0 2 [3, 5] .symmetric).length = 2 ∧
    (HammingWindow (fun _ => 1) 0 2 .symmetric).length = 2 ∧
    (HannWindow (fun _ => 1) 0 2 .symmetric).length = 2 ∧
    (∀ i, i < 2 →
      (GeneralizedCosineWindow (fun _ => 1) 0 2 [3, 5] .symmetric).getD i 0
        = ([3, 5] : List ℚ).getD 0 0
          + ∑ k in Finset.Ico 1 ([3, 5] : List ℚ).length,
              (-1 : ℚ) ^ k * ([3, 5] : List ℚ).getD k 0
                * (fun (_ : ℚ) => (1 : ℚ))
                    ((2 * 0 * (k : ℚ) * (i : ℚ)) / windowDenom 2 .symmetric)) :=
  generalizedCosineWindow_spec (fun _ => 1) 0 2 [3, 5] .symmetric (by decide)

end ELL.Dsp


/-! ## Theorems and witnesses for claims C2 through C8 -/

namespace ELL.Value

/-- C2: for float and double vectors of equal size, the vendor-optimized path
of `Dot` (under either context) returns the same value as the generic
elementwise-loop path computes on the same inputs, namely the dot product
sum over i of v1 at i times v2 at i; in particular `Dot([1,2,3],[4,5,6])`
is `32` on both the vendor path and the loop path. -/
theorem dot_backends_agree (ctx : ContextType) (n : Nat) (x y : List ℚ) :
    (Dot ctx ⟨.float, ⟨[n], 1⟩, x⟩ ⟨.float, ⟨[n], 1⟩, y⟩).1
      = .ok (dotLoop ⟨.float, ⟨[n], 1⟩, x⟩ ⟨.float, ⟨[n], 1⟩, y⟩) ∧
    (Dot ctx ⟨.double, ⟨[n], 1⟩, x⟩ ⟨.double, ⟨[n], 1⟩, y⟩).1
      = .ok (dotLoop ⟨.double, ⟨[n], 1⟩, x⟩ ⟨.double, ⟨[n], 1⟩, y⟩) ∧
    dotLoop ⟨.float, ⟨[n], 1⟩, x⟩ ⟨.float, ⟨[n], 1⟩, y⟩
      = ((List.range n).map (fun i => x.getD i 0 * y.getD i 0)).sum ∧
    (Dot .compute ⟨.float, ⟨[3], 1⟩, [1, 2, 3]⟩ ⟨.float, ⟨[3], 1⟩, [4, 5, 6]⟩).1
      = .ok 32 ∧
    dotLoop ⟨.int32, ⟨[3], 1⟩, [1, 2, 3]⟩ ⟨.int32, ⟨[3], 1⟩, [4, 5, 6]⟩ = 32 := by
  have hloop : ∀ (t : ValueType) (m : Nat) (a b : List ℚ),
      dotLoop ⟨t, ⟨[m], 1⟩, a⟩ ⟨t, ⟨[m], 1⟩, b⟩
        = ((List.range m).map (fun i => a.getD i 0 * b.getD i 0)).sum := by
    intro t m a b
    rw [dotLoop, vectorFor_eq]
    rw [foldl_add_eq_sum (fun i => a.getD i 0 * b.getD i 0) (List.range m)]
    simp [allocateScalar]
  have hblas : ∀ (m : Nat) (a b : List ℚ),
      blasDot m a 1 b 1 = ((List.range m).map (fun i => a.getD i 0 * b.getD i 0)).sum := by
    intro m a b
    simp [blasDot]
  have hrange3 : List.range 3 = [0, 1, 2] := rfl
  refine ⟨?_, ?_, hloop .float n x y, ?_, ?_⟩
  · cases ctx <;>
      simp [Dot, Vector.size, hblas, hloop]
  · cases ctx <;>
      simp [Dot, Vector.size, hblas, hloop]
  · simp only [Dot, Vector.size]
    norm_num
    rw [hblas 3 [1, 2, 3] [4, 5, 6], hrange3]
    norm_num
  · rw [hloop .int32 3 [1, 2, 3] [4, 5, 6], hrange3]
    norm_num

/-- C3: `Dot` on vectors of different sizes fails with a size-mismatch error,
and on vectors of equal size but different element types fails with a
type-mismatch error; in both cases the backend-activity trace is empty, so
no backend is invoked and no partial computation is performed. -/
theorem dot_mismatch_errors (ctx : ContextType) (v1 v2 : Vector) :
    (v1.size ≠ v2.size → Dot ctx v1 v2 = (.error .sizeMismatch, [])) ∧
    (v1.size = v2.size → v1.type ≠ v2.type →
      Dot ctx v1 v2 = (.error .typeMismatch, [])) := by
  constructor
  · intro h
    simp [Dot, h]
  · intro hs ht
    simp [Dot, hs, ht]

/-- Witness for C3: size 3 against size 4 yields the size-mismatch error, and
float against double (both size 3) yields the type-mismatch error, each with
an empty backend trace; the hypotheses are discharged by `decide`. -/
theorem dot_mismatch_errors_witness :
    Dot .compute ⟨.float, ⟨[3], 1⟩, [1, 2, 3]⟩ ⟨.float, ⟨[4], 1⟩, [4, 5, 6, 7]⟩
      = (.error .sizeMismatch, []) ∧
    Dot .compute ⟨.float, ⟨[3], 1⟩, [1, 2, 3]⟩ ⟨.double, ⟨[3], 1⟩, [4, 5, 6]⟩
      = (.error .typeMismatch, []) :=
  ⟨(dot_mismatch_errors .compute ⟨.float, ⟨[3], 1⟩, [1, 2, 3]⟩
      ⟨.float, ⟨[4], 1⟩, [4, 5, 6, 7]⟩).1 (by decide),
    (dot_mismatch_errors .compute ⟨.float, ⟨[3], 1⟩, [1, 2, 3]⟩
      ⟨.double, ⟨[3], 1⟩, [4, 5, 6]⟩).2 (by decide) (by decide)⟩

/-- C5: `Sum` over the 2x2 matrix [[1,2],[3,4]] returns 10, and the matrix
`For` over that matrix raises no error and invokes the callback on exactly
the 4 distinct coordinate pairs (0,0), (0,1), (1,0), (1,1), in row-major
(column-fastest) order. -/
theorem sum_and_for_2x2 :
    Sum ⟨.int32, ⟨[2, 2], 1⟩, [[1, 2], [3, 4]]⟩ = .ok 10 ∧
    (Matrix.For ⟨.int32, ⟨[2, 2], 1⟩, [[1, 2], [3, 4]]⟩).1 = none ∧
    (Matrix.For ⟨.int32, ⟨[2, 2], 1⟩, [[1, 2], [3, 4]]⟩).2
      = [(0, 0), (0, 1), (1, 0), (1, 1)] ∧
    (Matrix.For ⟨.int32, ⟨[2, 2], 1⟩, [[1, 2], [3, 4]]⟩).2.length = 4 ∧
    (Matrix.For ⟨.int32, ⟨[2, 2], 1⟩, [[1, 2], [3, 4]]⟩).2.Nodup := by
  have hfor : Matrix.For ⟨.int32, ⟨[2, 2], 1⟩, [[1, 2], [3, 4]]⟩
      = (none, [(0, 0), (0, 1), (1, 0), (1, 1)]) := by
    simp [Matrix.For, contextFor]
    norm_num [List.range_succ]
  refine ⟨?_, by rw [hfor], by rw [hfor], by rw [hfor]; rfl, by rw [hfor]; decide⟩
  rw [Sum]
  rw [hfor]
  simp only [List.foldl]
  norm_num [Matrix.entry, allocateScalar, List.getD]

/-- C7: iterating with the vector `For` over a value whose layout is not
one-dimensional, or with the matrix `For` over a value whose layout is not
two-dimensional, raises an invalid-argument error, and the callback is
invoked zero times (the invocation sequence is empty). -/
theorem for_rank_mismatch (v : Vector) (m : Matrix)
    (hv : v.layout.dims.length ≠ 1) (hm : m.layout.dims.length ≠ 2) :
    Vector.For v = (some .invalidArgument, []) ∧
    (Vector.For v).2 = [] ∧
    Matrix.For m = (some .invalidArgument, []) ∧
    (Matrix.For m).2 = [] := by
  refine ⟨?_, ?_, ?_, ?_⟩ <;> simp [Vector.For, Matrix.For, hv, hm]

/-- Witness for C7: the vector-iteration routine on a 2-D layout and the
matrix-iteration routine on a 1-D layout; the rank hypotheses are discharged
by `decide`. -/
theorem for_rank_mismatch_witness :
    Vector.For ⟨.float, ⟨[2, 2], 1⟩, [1, 2, 3, 4]⟩ = (some .invalidArgument, []) ∧
    (Vector.For ⟨.float, ⟨[2, 2], 1⟩, [1, 2, 3, 4]⟩).2 = [] ∧
    Matrix.For ⟨.float, ⟨[4], 1⟩, [[1, 2, 3, 4]]⟩ = (some .invalidArgument, []) ∧
    (Matrix.For ⟨.float, ⟨[4], 1⟩, [[1, 2, 3, 4]]⟩).2 = [] :=
  for_rank_mismatch ⟨.float, ⟨[2, 2], 1⟩, [1, 2, 3, 4]⟩
    ⟨.float, ⟨[4], 1⟩, [[1, 2, 3, 4]]⟩ (by decide) (by decide)

/-- C8: `GEMM` fails with the not-implemented error on every pair of matrices
and `GEMV` fails with the not-implemented error on every matrix and vector;
neither ever returns a result. -/
theorem gemm_gemv_not_implemented :
    (∀ m1 m2 : Matrix, GEMM m1 m2 = .error .notImplemented
      ∧ (GEMM m1 m2).isOk = false) ∧
    (∀ (m : Matrix) (v : Vector), GEMV m v = .error .notImplemented
      ∧ (GEMV m v).isOk = false) :=
  ⟨fun _ _ => ⟨rfl, rfl⟩, fun _ _ => ⟨rfl, rfl⟩⟩

end ELL.Value

namespace ELL.Value

/-- C6: on size- and type-matched vectors, `Dot` attempts the vendor-routine
call shape (count, stride, stride) exactly when the element type is `float`
(declaring `cblas_sdot`) or `double` (declaring `cblas_ddot`), under either
active context; for every other element type the backend trace contains no
vendor call, and whenever the layout is one-dimensional the result is
computed by the generic elementwise loop. -/
theorem dot_vendor_dispatch (ctx : ContextType) (v1 v2 : Vector)
    (hs : v1.size = v2.size) (ht : v1.type = v2.type) :
    (v1.type = .float →
      Dot ctx v1 v2
        = (.ok (blasDot v1.size v1.elems v1.layout.inc v2.elems v2.layout.inc),
            [.vendor "cblas_sdot" v1.size v1.layout.inc v2.layout.inc])) ∧
    (v1.type = .double →
      Dot ctx v1 v2
        = (.ok (blasDot v1.size v1.elems v1.layout.inc v2.elems v2.layout.inc),
            [.vendor "cblas_ddot" v1.size v1.layout.inc v2.layout.inc])) ∧
    (v1.type ≠ .float → v1.type ≠ .double →
      (∀ e ∈ (Dot ctx v1 v2).2, e.isVendor = false) ∧
      (v1.layout.dims.length = 1 → (Dot ctx v1 v2).1 = .ok (dotLoop v1 v2))) := by
  refine ⟨?_, ?_, ?_⟩
  · intro hf
    have hf2 : v2.type = .float := by rw [← ht]; exact hf
    cases ctx <;> simp [Dot, hs, ht, hf, hf2]
  · intro hd
    have hd2 : v2.type = .double := by rw [← ht]; exact hd
    cases ctx <;> simp [Dot, hs, ht, hd, hd2]
  · intro hnf hnd
    have hnf2 : ¬ v2.type = .float := by rw [← ht]; exact hnf
    have hnd2 : ¬ v2.type = .double := by rw [← ht]; exact hnd
    have hdot : Dot ctx v1 v2
        = match Vector.For v1 with
          | (some e, _) => (.error e, [])
          | (none, indices) => (.ok (dotLoop v1 v2), indices.map DotEvent.loopStep) := by
      simp [Dot, hs, ht, hnf, hnd, hnf2, hnd2]
    constructor
    · intro e he
      rcases hfor : Vector.For v1 with ⟨err, indices⟩
      cases err with
      | some e' =>
        rw [hdot, hfor] at he
        simp at he
      | none =>
        rw [hdot, hfor] at he
        simp only [List.mem_map] at he
        obtain ⟨i, _, hi⟩ := he
        rw [← hi]
        rfl
    · intro hrank
      have hfor : Vector.For v1
          = (none, (contextFor v1.layout.dims).map (fun c => c.getD 0 0)) := by
        simp [Vector.For, hrank]
      rw [hdot, hfor]

/-- Witness for C6: the theorem applied to two size-3 float vectors under the
compute context; both hypotheses are discharged by `rfl`-style `decide`. -/
theorem dot_vendor_dispatch_witness :
    ((⟨.float, ⟨[3], 1⟩, [1, 2, 3]⟩ : Vector).type = .float →
      Dot .compute ⟨.float, ⟨[3], 1⟩, [1, 2, 3]⟩ ⟨.float, ⟨[3], 1⟩, [4, 5, 6]⟩
        = (.ok (blasDot (⟨.float, ⟨[3], 1⟩, [1, 2, 3]⟩ : Vector).size [1, 2, 3] 1 [4, 5, 6] 1),
            [.vendor "cblas_sdot" (⟨.float, ⟨[3], 1⟩, [1, 2, 3]⟩ : Vector).size 1 1])) ∧
    ((⟨.float, ⟨[3], 1⟩, [1, 2, 3]⟩ : Vector).type = .double →
      Dot .compute ⟨.float, ⟨[3], 1⟩, [1, 2, 3]⟩ ⟨.float, ⟨[3], 1⟩, [4, 5, 6]⟩
        = (.ok (blasDot (⟨.float, ⟨[3], 1⟩, [1, 2, 3]⟩ : Vector).size [1, 2, 3] 1 [4, 5, 6] 1),
            [.vendor "cblas_ddot" (⟨.float, ⟨[3], 1⟩, [1, 2, 3]⟩ : Vector).size 1 1])) ∧
    ((⟨.float, ⟨[3], 1⟩, [1, 2, 3]⟩ : Vector).type ≠ .float →
      (⟨.float, ⟨[3], 1⟩, [1, 2, 3]⟩ : Vector).type ≠ .double →
      (∀ e ∈ (Dot .compute ⟨.float, ⟨[3], 1⟩, [1, 2, 3]⟩
          ⟨.float, ⟨[3], 1⟩, [4, 5, 6]⟩).2, e.isVendor = false) ∧
      ((⟨.float, ⟨[3], 1⟩, [1, 2, 3]⟩ : Vector).layout.dims.length = 1 →
        (Dot .compute ⟨.float, ⟨[3], 1⟩, [1, 2, 3]⟩ ⟨.float, ⟨[3], 1⟩, [4, 5, 6]⟩).1
          = .ok (dotLoop ⟨.float, ⟨[3], 1⟩, [1, 2, 3]⟩ ⟨.float, ⟨[3], 1⟩, [4, 5, 6]⟩))) :=
  dot_vendor_dispatch .compute ⟨.float, ⟨[3], 1⟩, [1, 2, 3]⟩
    ⟨.float, ⟨[3], 1⟩, [4, 5, 6]⟩ (by decide) (by decide)

end ELL.Value

namespace ELL.Value

/-- C4: every free binary operator on Vector and Matrix works on a copy of its
left operand, so after the operation every original operand slot still holds
its original elements; the returned handle is a fresh slot holding the
elementwise result. The scalar-plus-vector and scalar-times-vector operators
delegate to their commuted forms. -/
theorem free_operators_do_not_mutate (st : VectorStore) (v w : Nat) (s : ℚ)
    (mst : MatrixStore) (m p : Nat)
    (hv : v < st.length) (hw : w < st.length)
    (hm : m < mst.length) (hp : p < mst.length) :
    ((vecAddScalar st v s).1.getD v [] = st.getD v [] ∧
      (vecAddScalar st v s).1.getD (vecAddScalar st v s).2 []
        = (st.getD v []).map (fun x => x + s)) ∧
    (scalarAddVec st s v = vecAddScalar st v s) ∧
    ((vecAddVec st v w).1.getD v [] = st.getD v [] ∧
      (vecAddVec st v w).1.getD w [] = st.getD w [] ∧
      (vecAddVec st v w).1.getD (vecAddVec st v w).2 []
        = List.zipWith (fun x y => x + y) (st.getD v []) (st.getD w [])) ∧
    ((scalarSubVec st s v).1.getD v [] = st.getD v [] ∧
      (scalarSubVec st s v).1.getD (scalarSubVec st s v).2 []
        = (st.getD v []).map (fun x => s - x)) ∧
    ((vecSubScalar st v s).1.getD v [] = st.getD v [] ∧
      (vecSubScalar st v s).1.getD (vecSubScalar st v s).2 []
        = (st.getD v []).map (fun x => x - s)) ∧
    ((vecSubVec st v w).1.getD v [] = st.getD v [] ∧
      (vecSubVec st v w).1.getD w [] = st.getD w [] ∧
      (vecSubVec st v w).1.getD (vecSubVec st v w).2 []
        = List.zipWith (fun x y => x - y) (st.getD v []) (st.getD w [])) ∧
    ((vecMulScalar st v s).1.getD v [] = st.getD v [] ∧
      (vecMulScalar st v s).1.getD (vecMulScalar st v s).2 []
        = (st.getD v []).map (fun x => x * s)) ∧
    (scalarMulVec st s v = vecMulScalar st v s) ∧
    ((scalarDivVec st s v).1.getD v [] = st.getD v [] ∧
      (scalarDivVec st s v).1.getD (scalarDivVec st s v).2 []
        = (st.getD v []).map (fun x => s / x)) ∧
    ((vecDivScalar st v s).1.getD v [] = st.getD v [] ∧
      (vecDivScalar st v s).1.getD (vecDivScalar st v s).2 []
        = (st.getD v []).map (fun x => x / s)) ∧
    ((matAddMat mst m p).1.getD m [] = mst.getD m [] ∧
      (matAddMat mst m p).1.getD p [] = mst.getD p [] ∧
      (matAddMat mst m p).1.getD (matAddMat mst m p).2 []
        = List.zipWith (List.zipWith (fun x y => x + y))
            (mst.getD m []) (mst.getD p [])) ∧
    ((matAddScalar mst m s).1.getD m [] = mst.getD m [] ∧
      (matAddScalar mst m s).1.getD (matAddScalar mst m s).2 []
        = (mst.getD m []).map (List.map (fun x => x + s))) ∧
    ((matSubMat mst m p).1.getD m [] = mst.getD m [] ∧
      (matSubMat mst m p).1.getD p [] = mst.getD p [] ∧
      (matSubMat mst m p).1.getD (matSubMat mst m p).2 []
        = List.zipWith (List.zipWith (fun x y => x - y))
            (mst.getD m []) (mst.getD p [])) ∧
    ((matSubScalar mst m s).1.getD m [] = mst.getD m [] ∧
      (matSubScalar mst m s).1.getD (matSubScalar mst m s).2 []
        = (mst.getD m []).map (List.map (fun x => x - s))) ∧
    ((matMulScalar mst m s).1.getD m [] = mst.getD m [] ∧
      (matMulScalar mst m s).1.getD (matMulScalar mst m s).2 []
        = (mst.getD m []).map (List.map (fun x => x * s))) ∧
    ((matDivScalar mst m s).1.getD m [] = mst.getD m [] ∧
      (matDivScalar mst m s).1.getD (matDivScalar mst m s).2 []
        = (mst.getD m []).map (List.map (fun x => x / s))) := by
  refine ⟨⟨?_, ?_⟩, rfl, ⟨?_, ?_, ?_⟩, ⟨?_, ?_⟩, ⟨?_, ?_⟩, ⟨?_, ?_, ?_⟩, ⟨?_, ?_⟩,
    rfl, ⟨?_, ?_⟩, ⟨?_, ?_⟩, ⟨?_, ?_, ?_⟩, ⟨?_, ?_⟩, ⟨?_, ?_, ?_⟩, ⟨?_, ?_⟩,
    ⟨?_, ?_⟩, ⟨?_, ?_⟩⟩
  · rw [vecAddScalar_eq]; exact store_frame _ _ _ _ hv _
  · rw [vecAddScalar_eq]; exact store_result _ _ _ _
  · rw [vecAddVec_eq st v w hw]; exact store_frame _ _ _ _ hv _
  · rw [vecAddVec_eq st v w hw]; exact store_frame _ _ _ _ hw _
  · rw [vecAddVec_eq st v w hw]; exact store_result _ _ _ _
  · rw [scalarSubVec_eq]; exact store_frame _ _ _ _ hv _
  · rw [scalarSubVec_eq]; exact store_result _ _ _ _
  · rw [vecSubScalar_eq]; exact store_frame _ _ _ _ hv _
  · rw [vecSubScalar_eq]; exact store_result _ _ _ _
  · rw [vecSubVec_eq st v w hw]; exact store_frame _ _ _ _ hv _
  · rw [vecSubVec_eq st v w hw]; exact store_frame _ _ _ _ hw _
  · rw [vecSubVec_eq st v w hw]; exact store_result _ _ _ _
  · rw [vecMulScalar_eq]; exact store_frame _ _ _ _ hv _
  · rw [vecMulScalar_eq]; exact store_result _ _ _ _
  · rw [scalarDivVec_eq]; exact store_frame _ _ _ _ hv _
  · rw [scalarDivVec_eq]; exact store_result _ _ _ _
  · rw [vecDivScalar_eq]; exact store_frame _ _ _ _ hv _
  · rw [vecDivScalar_eq]; exact store_result _ _ _ _
  · rw [matAddMat_eq mst m p hp]; exact store_frame _ _ _ _ hm _
  · rw [matAddMat_eq mst m p hp]; exact store_frame _ _ _ _ hp _
  · rw [matAddMat_eq mst m p hp]; exact store_result _ _ _ _
  · rw [matAddScalar_eq]; exact store_frame _ _ _ _ hm _
  · rw [matAddScalar_eq]; exact store_result _ _ _ _
  · rw [matSubMat_eq mst m p hp]; exact store_frame _ _ _ _ hm _
  · rw [matSubMat_eq mst m p hp]; exact store_frame _ _ _ _ hp _
  · rw [matSubMat_eq mst m p hp]; exact store_result _ _ _ _
  · rw [matSubScalar_eq]; exact store_frame _ _ _ _ hm _
  · rw [matSubScalar_eq]; exact store_result _ _ _ _
  · rw [matMulScalar_eq]; exact store_frame _ _ _ _ hm _
  · rw [matMulScalar_eq]; exact store_result _ _ _ _
  · rw [matDivScalar_eq]; exact store_frame _ _ _ _ hm _
  · rw [matDivScalar_eq]; exact store_result _ _ _ _

/-- Witness for C4 at the spec's own example: in a store whose slot 0 holds
v = [1,2,3], the operation v + 1 (copy, then `copy += 1`) leaves slot 0 at
[1,2,3] and the fresh slot holds [2,3,4]; the handle-validity hypotheses are
discharged by `decide`. -/
theorem free_operators_do_not_mutate_witness :
    (vecAddScalar [[1, 2, 3]] 0 1).1.getD 0 [] = [1, 2, 3] ∧
    (vecAddScalar [[1, 2, 3]] 0 1).1.getD (vecAddScalar [[1, 2, 3]] 0 1).2 []
      = [2, 3, 4] ∧
    (matAddScalar [[[1, 2], [3, 4]]] 0 1).1.getD 0 [] = [[1, 2], [3, 4]] := by
  have h := free_operators_do_not_mutate [[1, 2, 3]] 0 0 1 [[[1, 2], [3, 4]]] 0 0
    (by decide) (by decide) (by decide) (by decide)
  refine ⟨h.1.1.trans rfl, h.1.2.trans ?_, (h.2.2.2.2.2.2.2.2.2.2.2.1).1.trans rfl⟩
  norm_num

end ELL.Value

namespace ELL.Compiler

/-- Witness for C9: constructing a literal node from the non-null pointer to
variable 5 succeeds and stores 5; the success hypothesis of the storing
clause is discharged by `rfl`. -/
theorem literalNode_construct_spec_witness :
    LiteralNode.construct (some 5) = .ok ⟨5⟩ ∧
    (⟨5⟩ : LiteralNode).pVar = 5 :=
  ⟨literalNode_construct_spec.2.1 5,
    literalNode_construct_spec.2.2 5 ⟨5⟩ rfl⟩

end ELL.Compiler
